import Mathlib

/-!
Verification of the image ingestion and transformation-dispatch pipeline of
the `ppbears-saas` FastAPI server.

Shallow embedding of:
  * `server_fastapi/services/replicate_service.py`
      - `ReplicateService.cartoonize` (model dispatch table)
      - `ReplicateService.remove_background`
      - `ReplicateService._extract_url` (polymorphic result-URL extraction)
  * `server_fastapi/services/image_processor.py`
      - `ImageProcessor.process_image` (decode, mode-convert, downscale, PNG data URI)
  * `server_fastapi/routes/ai.py`
      - the `/cartoon` and `/remove-bg` handlers (acquisition, meta parsing,
        orchestration, error envelopes)
  * `server_fastapi/models.py` — `AIResponse`
  * `server_fastapi/config.py` — `Settings.max_dimension` (default 2048)

Python runtime values flowing through `_extract_url` are modelled by the
inductive `Value`; a possibly-cyclic Python heap is modelled separately by
`GHeap` (Python objects can be cyclic, which a Lean inductive cannot
represent).  External library calls (httpx GET, `replicate.Client.run`,
`json.loads`, PIL decode) are modelled as explicit function parameters in an
`Effects` record; PIL's `Image.thumbnail` geometry is translated from
Pillow's resize arithmetic with exact rationals standing in for Python
floats.
-/

/-! ## Values returned by the external inference service

`Value` models the Python value received from `replicate.Client.run`:
a string, a list, a dict, an opaque object (e.g. `FileOutput`) with an
optional `url` attribute and a `__str__` rendering, or `None`.

For an opaque object the only facts `_extract_url` can observe are:
whether it has a callable `url` attribute, what calling it does (raise,
return a non-string, or return a string), and what `str(·)` does (raise or
return a string).  `ObjUrl` and `ObjStr` record exactly those observations.
-/

inductive ObjUrl where
  | noAttr
  | callRaises
  | callReturnsNonStr
  | callReturnsStr (s : String)
deriving DecidableEq

inductive ObjStr where
  | raises
  | returns (s : String)
deriving DecidableEq

inductive Value where
  | vStr (s : String)
  | vList (xs : List Value)
  | vDict (entries : List (String × Value))
  | vObj (urlAttr : ObjUrl) (strRepr : ObjStr)
  | vNone

/-- Python `s.startswith(p)` for a single pattern, computed on the
character lists of the strings. -/
def strStartsWith (s p : String) : Bool := p.data.isPrefixOf s.data

/-- Python `s.startswith(("http://", "https://"))` — the check used at every
return site of `_extract_url`. -/
def hasHttpScheme (s : String) : Bool :=
  strStartsWith s "http://" || strStartsWith s "https://"

/-- Branch 4 of `_extract_url` (replicate_service.py lines 117–123):
`hasattr(result, 'url') and callable(result.url)`, then
`try: url = result.url()` with `isinstance(url, str)` and the scheme check;
any exception is swallowed (`except Exception: pass`). -/
def urlAttrBranch : ObjUrl → Option String
  | .callReturnsStr s => if hasHttpScheme s then some s else none
  | _ => none

/-- Branch 5 of `_extract_url` (lines 126–132): `try: s = str(result)` and
the scheme check; exceptions swallowed. -/
def strReprBranch : ObjStr → Option String
  | .returns s => if hasHttpScheme s then some s else none
  | .raises => none

/-!
`ReplicateService._extract_url` (replicate_service.py lines 90–134).

The Python dict probe is a loop
`for key in ["url", "image", "output", "result", "href"]`, unrolled here to
its five iterations (`probeOne` is one iteration body: `if key in result:`
followed by the recursive call, a `None` candidate falling through to the
next key).

Fall-through behaviour of the non-object shapes is folded into their cases:
  * a `str` without an http(s) scheme reaches branch 5, where `str(s) = s`
    fails the same scheme check → `None`;
  * an empty `list` reaches branch 5, where `str([])` starts with `"["` →
    `None`;
  * a `dict` whose probes all fail reaches branch 5, where `str({...})`
    starts with `"{"` → `None`;
  * Python `None` reaches branch 5, where `str(None) = "None"` → `None`.
A non-empty list returns the recursion on its first element unconditionally
(`return self._extract_url(result[0])`), even when that recursion found
nothing.
-/

mutual
def extract_url : Value → Option String
  | .vStr s => if hasHttpScheme s then some s else none
  | .vList [] => none
  | .vList (x :: _) => extract_url x
  | .vDict entries =>
      match probeOne entries "url" with
      | some u => some u
      | none =>
        match probeOne entries "image" with
        | some u => some u
        | none =>
          match probeOne entries "output" with
          | some u => some u
          | none =>
            match probeOne entries "result" with
            | some u => some u
            | none =>
              match probeOne entries "href" with
              | some u => some u
              | none => none
  | .vObj u sr =>
      match urlAttrBranch u with
      | some url => some url
      | none => strReprBranch sr
  | .vNone => none

/-- One iteration of the dict-probe loop: `if key in result:` (association
lookup — Python dict keys are unique) followed by the recursive extraction;
returns `none` both when the key is absent and when the recursive
extraction found nothing, so the caller goes on to the next priority key. -/
def probeOne : List (String × Value) → String → Option String
  | [], _ => none
  | (k, v) :: rest, key =>
      if k = key then
        extract_url v
      else probeOne rest key
end

/-! ## Possibly-cyclic inference outputs

A Lean inductive value is always a finite tree, but Python lists and dicts
can contain themselves.  To settle what `_extract_url` does on cyclic
output, the same function is re-expressed over an explicit heap: `GHeap` is
a list of nodes addressed by index, and list/dict fields hold addresses
instead of sub-values.  `extractG` is `_extract_url` with its recursion made
explicit through a depth budget: `outOfFuel` for every budget means the
Python recursion never returns (in CPython it aborts with a
`RecursionError` once the interpreter's recursion limit is hit). -/

inductive GNode where
  | gStr (s : String)
  | gList (xs : List Nat)
  | gDict (entries : List (String × Nat))
  | gObj (urlAttr : ObjUrl) (strRepr : ObjStr)
  | gNone

abbrev GHeap := List GNode

inductive GResult where
  | found (s : String)
  | absent
  | outOfFuel
deriving DecidableEq

def lookupG : List (String × Nat) → String → Option Nat
  | [], _ => none
  | (k, r) :: rest, key => if k = key then some r else lookupG rest key

mutual
def extractG (h : GHeap) : Nat → Nat → GResult
  | 0, _ => .outOfFuel
  | fuel + 1, r =>
      match h.get? r with
      | none => .absent
      | some (.gStr s) => if hasHttpScheme s then .found s else .absent
      | some (.gList []) => .absent
      | some (.gList (x :: _)) => extractG h fuel x
      | some (.gDict entries) =>
          probeG h fuel entries ["url", "image", "output", "result", "href"]
      | some (.gObj u sr) =>
          match urlAttrBranch u with
          | some url => .found url
          | none =>
              match strReprBranch sr with
              | some s => .found s
              | none => .absent
      | some .gNone => .absent
termination_by fuel _ => (fuel, 0)

def probeG (h : GHeap) (fuel : Nat) : List (String × Nat) → List String → GResult
  | _, [] => .absent
  | entries, key :: keys =>
      match lookupG entries key with
      | none => probeG h fuel entries keys
      | some r =>
          match extractG h fuel r with
          | .found u => .found u
          | .absent => probeG h fuel entries keys
          | .outOfFuel => .outOfFuel
termination_by _ keys => (fuel, keys.length + 1)
end

/-! ## Exception-explicit reading of the extractor

The only operations inside `_extract_url` that can raise on a (finite)
Python value are the two probes `result.url()` and `str(result)`; the
source wraps each in `try: ... except Exception: pass`.  `extract_urlE`
is `_extract_url` with those raises made explicit in an `Except` result
and the two `try`/`except` blocks modelled by `tryExceptPass`.  That the
function never produces `.error` — i.e. the two handlers cover every raise
site — is the content of the totality claim on finite values. -/

def urlAttrBranchE : ObjUrl → Except String (Option String)
  | .noAttr => .ok none
  | .callRaises => .error "exception raised by result.url()"
  | .callReturnsNonStr => .ok none
  | .callReturnsStr s => .ok (if hasHttpScheme s then some s else none)

def strReprBranchE : ObjStr → Except String (Option String)
  | .raises => .error "exception raised by str(result)"
  | .returns s => .ok (if hasHttpScheme s then some s else none)

/-- `try: ... except Exception: pass` around one probe: an exception is
swallowed and the probe contributes no match. -/
def tryExceptPass (r : Except String (Option String)) : Option String :=
  match r with
  | .ok v => v
  | .error _ => none

mutual
def extract_urlE : Value → Except String (Option String)
  | .vStr s => .ok (if hasHttpScheme s then some s else none)
  | .vList [] => .ok none
  | .vList (x :: _) => extract_urlE x
  | .vDict entries =>
      match probeOneE entries "url" with
      | .error e => .error e
      | .ok (some u) => .ok (some u)
      | .ok none =>
        match probeOneE entries "image" with
        | .error e => .error e
        | .ok (some u) => .ok (some u)
        | .ok none =>
          match probeOneE entries "output" with
          | .error e => .error e
          | .ok (some u) => .ok (some u)
          | .ok none =>
            match probeOneE entries "result" with
            | .error e => .error e
            | .ok (some u) => .ok (some u)
            | .ok none =>
              match probeOneE entries "href" with
              | .error e => .error e
              | .ok (some u) => .ok (some u)
              | .ok none => .ok none
  | .vObj u sr =>
      .ok (match tryExceptPass (urlAttrBranchE u) with
           | some url => some url
           | none => tryExceptPass (strReprBranchE sr))
  | .vNone => .ok none

def probeOneE : List (String × Value) → String → Except String (Option String)
  | [], _ => .ok none
  | (k, v) :: rest, key =>
      if k = key then
        extract_urlE v
      else probeOneE rest key
end

/-! ## Model dispatch

`ReplicateService.cartoonize` lines 28–44 and
`ReplicateService.remove_background` lines 70–75: the style/operation
selector is mapped to a hard-coded model identifier and input payload.
`PValue` covers the three payload value shapes that occur (string, list of
strings, boolean). -/

inductive PValue where
  | pStr (s : String)
  | pList (xs : List String)
  | pBool (b : Bool)
deriving DecidableEq

structure ModelInvocation where
  model : String
  input : List (String × PValue)
deriving DecidableEq

/-- The `if style_id == ... / elif / else` chain of
`ReplicateService.cartoonize` (replicate_service.py lines 28–44). -/
def cartoonizeDispatch (image_uri : String) (style_id : String) : ModelInvocation :=
  if style_id = "toon_mochi" then
    { model := "catacolabs/cartoonify:043a7a0bb103cd8ce5c63e64161eae63a99f01028b83aa1e28e53a42d86191d3",
      input := [("image", .pStr image_uri)] }
  else if style_id = "toon_anime" then
    { model := "qwen-edit-apps/qwen-image-edit-plus-lora-photo-to-anime",
      input := [("image", .pList [image_uri]),
                ("aspect_ratio", .pStr "match_input_image"),
                ("output_format", .pStr "png"),
                ("go_fast", .pBool true)] }
  else
    { model := "flux-kontext-apps/cartoonify:398ba4a9808131eae162741458435bcf145d03690cecef1467bdf81cc1ad654e",
      input := [("input_image", .pStr image_uri),
                ("aspect_ratio", .pStr "match_input_image")] }

/-- The fixed model of `ReplicateService.remove_background`
(replicate_service.py lines 70–75). -/
def removeBackgroundDispatch (image_uri : String) : ModelInvocation :=
  { model := "851-labs/background-remover:a029dff38972b5fda4ec5d75d7d1cd25aeff621d2cf4946a41055d7db66b80bc",
    input := [("image", .pStr image_uri),
              ("format", .pStr "png"),
              ("background_type", .pStr "rgba")] }

/-! ## Image normalization

`ImageProcessor.process_image` (image_processor.py lines 14–49) with
`Settings.max_dimension` (config.py line 26, default 2048).

`PImage` models a decoded PIL image by its observable attributes: width,
height and mode (the pipeline never inspects pixel values).  The byte
decoding step `Image.open(io.BytesIO(buffer))` is the PIL library's; the
model starts from its result, so a `PImage` is "a byte sequence that
decodes as an image".

`Image.thumbnail((max, max), LANCZOS)` is translated from Pillow's
`Image.thumbnail` arithmetic (floor/ceil of the rescaled axis, choosing
whichever is closer to the original aspect ratio, floor preferred on ties,
clamped to at least 1).  Pillow computes with Python floats; the model uses
exact rationals (in `ℚ` the division `x / 0` is `0`, making `roundAspectH`
total where Pillow's float key could divide by zero).

PNG re-encoding (`image.save(output_buffer, format="PNG")`) is a library
serialization; `pngSerialize` stands in for it, recording the PNG
signature, the two IHDR dimensions and the PNG color type of the mode —
the attributes the claims observe.  `base64Encode` is RFC 4648 base64. -/

structure PImage where
  width : Nat
  height : Nat
  mode : String
deriving DecidableEq

/-- Pillow `round_aspect(number, key=lambda n: abs(aspect - n / y))` — the
width of a thumbnail whose height was fixed to `y`. -/
def roundAspectW (number aspect : ℚ) (y : Nat) : Nat :=
  let f := (⌊number⌋).toNat
  let c := (⌈number⌉).toNat
  if |aspect - (f : ℚ) / (y : ℚ)| ≤ |aspect - (c : ℚ) / (y : ℚ)| then
    max f 1
  else
    max c 1

/-- Pillow `round_aspect(number, key=lambda n: abs(aspect - x / n))` — the
height of a thumbnail whose width was fixed to `x`. -/
def roundAspectH (number aspect : ℚ) (x : Nat) : Nat :=
  let f := (⌊number⌋).toNat
  let c := (⌈number⌉).toNat
  if |aspect - (x : ℚ) / (f : ℚ)| ≤ |aspect - (x : ℚ) / (c : ℚ)| then
    max f 1
  else
    max c 1

/-- Pillow `Image.thumbnail((sizeW, sizeH))`, restricted to its effect on
the dimensions. -/
def thumbnail (img : PImage) (sizeW sizeH : Nat) : PImage :=
  if sizeW ≥ img.width ∧ sizeH ≥ img.height then img
  else if (sizeW : ℚ) / (sizeH : ℚ) ≥ (img.width : ℚ) / (img.height : ℚ) then
    { img with width := roundAspectW ((sizeH : ℚ) * ((img.width : ℚ) / (img.height : ℚ)))
                          ((img.width : ℚ) / (img.height : ℚ)) sizeH,
               height := sizeH }
  else
    { img with width := sizeW,
               height := roundAspectH ((sizeW : ℚ) / ((img.width : ℚ) / (img.height : ℚ)))
                           ((img.width : ℚ) / (img.height : ℚ)) sizeW }

/-- Lines 29–30 of image_processor.py:
`if image.mode not in ('RGB', 'RGBA'): image = image.convert('RGB')`. -/
def modeConvert (img : PImage) : PImage :=
  if img.mode = "RGB" ∨ img.mode = "RGBA" then img else { img with mode := "RGB" }

/-- Lines 29–37 of image_processor.py: mode conversion followed by the
conditional downscale. -/
def normalizeImage (maxDim : Nat) (img : PImage) : PImage :=
  let i1 := modeConvert img
  if i1.width > maxDim ∨ i1.height > maxDim then thumbnail i1 maxDim maxDim
  else i1

/-- PNG color type of a mode ("RGB" → truecolor 2, "RGBA" → 6). -/
def pngColorType (mode : String) : Nat :=
  if mode = "RGB" then 2 else if mode = "RGBA" then 6 else 0

def be32 (n : Nat) : List Nat :=
  [n / 2 ^ 24 % 256, n / 2 ^ 16 % 256, n / 2 ^ 8 % 256, n % 256]

/-- Stand-in for `image.save(output_buffer, format="PNG")`: the PNG
signature, the IHDR width and height and the color type of the mode.
Pixel data is elided — no claim observes it. -/
def pngSerialize (img : PImage) : List Nat :=
  [137, 80, 78, 71] ++ be32 img.width ++ be32 img.height ++ [pngColorType img.mode]

def base64Alphabet : List Char :=
  "ABCDEFGHIJKLMNOPQRSTUVWXYZabcdefghijklmnopqrstuvwxyz0123456789+/".data

def b64Char (n : Nat) : Char := base64Alphabet.getD n 'A'

/-- RFC 4648 base64 of a byte list (`base64.b64encode`). -/
def b64Chunks : List Nat → List Char
  | [] => []
  | [b1] => [b64Char (b1 / 4), b64Char (b1 % 4 * 16), '=', '=']
  | [b1, b2] => [b64Char (b1 / 4), b64Char (b1 % 4 * 16 + b2 / 16),
                 b64Char (b2 % 16 * 4), '=']
  | b1 :: b2 :: b3 :: rest =>
      b64Char (b1 / 4) :: b64Char (b1 % 4 * 16 + b2 / 16) ::
      b64Char (b2 % 16 * 4 + b3 / 64) :: b64Char (b3 % 64) :: b64Chunks rest

def base64Encode (bs : List Nat) : String := String.mk (b64Chunks bs)

/-- `ImageProcessor.process_image` on a successfully decoded image
(image_processor.py lines 26–46): normalize, re-encode as PNG,
base64-wrap as a data URI. -/
def process_image (maxDim : Nat) (img : PImage) : String :=
  let out := normalizeImage maxDim img
  "data:image/png;base64," ++ base64Encode (pngSerialize out)

/-- `Settings.max_dimension` default (config.py line 26). -/
def defaultMaxDimension : Nat := 2048

/-! ## Route handlers (routes/ai.py)

The two FastAPI handlers `cartoonize` (`/cartoon`, lines 19–108) and
`remove_background` (`/remove-bg`, lines 111–184).

External calls are the fields of `Effects`:
  * `fetch` — `httpx.AsyncClient().get(imageUrl)`: either a transport
    exception (`.error`) or an HTTP response; `raise_for_status()` is
    modelled at the call site;
  * `jsonLoads` — `json.loads(meta)`;
  * `processImage` — `ImageProcessor().process_image(buffer)` over raw
    request bytes: decoding arbitrary bytes is PIL's, so the handler model
    treats the whole step as fallible (`ValueError` on bad bytes); its
    behaviour on decodable input is `process_image` above;
  * `runModel` — `replicate.Client.run(model, input=input_data)`;
  * `replicateToken` — `settings.replicate_api_token`
    (`ReplicateService.__init__` raises `ValueError` when it is empty).

An uploaded file part is `Option (List Nat)`: `some bytes` when the
multipart field is present (a Starlette `UploadFile` object and its
`.file` are truthy regardless of content, so `if image and image.file:`
tests presence, not non-emptiness), `none` when absent.  Exceptions are
`Except String` with the exception text. -/

structure FetchResp where
  status : Nat
  content : List Nat

/-- The subset of `json.loads` results the handler distinguishes:
a dict (association list), a string, or any other JSON value. -/
inductive JValue where
  | jDict (entries : List (String × JValue))
  | jStr (s : String)
  | jOther

inductive JsonOutcome where
  | decodeError
  | val (v : JValue)

structure Effects where
  fetch : String → Except String FetchResp
  jsonLoads : String → JsonOutcome
  processImage : List Nat → Except String String
  runModel : String → List (String × PValue) → Except String Value
  replicateToken : String

/-- `AIResponse` (models.py lines 6–14); unset optional fields are `none`. -/
structure AIResponse where
  buildId : String
  success : Bool
  url : Option String := none
  message : Option String := none
  errorCode : Option String := none
  error : Option String := none
  stack : Option String := none
deriving DecidableEq

structure HttpResponse where
  status : Nat
  body : AIResponse
deriving DecidableEq

/-- Stand-in for `traceback.format_exc()` on the caught exception. -/
def formatExc (e : String) : String :=
  "Traceback (most recent call last):\n" ++ e

/-- The 400 response of lines 56–65 / 142–151. -/
def uploadFailedResponse (buildId : String) : HttpResponse :=
  { status := 400,
    body := { buildId := buildId, success := false,
              message := some "未上傳圖片或無效的圖片連結",
              errorCode := some "UPLOAD_FAILED" } }

/-- The 200 success response of lines 87–91 / 163–167. -/
def successResponse (buildId url : String) : HttpResponse :=
  { status := 200,
    body := { buildId := buildId, success := true, url := some url } }

/-- The 500 response of the outer `except Exception` (lines 93–108 /
169–184). -/
def aiErrorResponse (buildId message e : String) : HttpResponse :=
  { status := 500,
    body := { buildId := buildId, success := false,
              message := some message,
              errorCode := some "AI_ERROR",
              error := some e,
              stack := some (formatExc e) } }

/-- Lines 42–54 / 128–140: obtain `image_buffer`.  The upload branch fires
whenever the file part is present (`if image and image.file:`); otherwise a
truthy (non-empty) `imageUrl` is fetched and `raise_for_status()` raises on
a non-2xx status (httpx `is_success` is 200–299). -/
def acquireBuffer (eff : Effects) (upload : Option (List Nat))
    (imageUrl : Option String) : Except String (Option (List Nat)) :=
  match upload with
  | some bs => .ok (some bs)
  | none =>
    match imageUrl with
    | none => .ok none
    | some u =>
      if u = "" then .ok none
      else
        match eff.fetch u with
        | .error e => .error e
        | .ok resp =>
          if 200 ≤ resp.status ∧ resp.status ≤ 299 then .ok (some resp.content)
          else .error ("Client error or server error in response: " ++ toString resp.status)

/-- `if not image_buffer:` — `None` and `b""` are both falsy. -/
def truthyBuffer : Option (List Nat) → Option (List Nat)
  | none => none
  | some [] => none
  | some (b :: bs) => some (b :: bs)

def lookupJ : List (String × JValue) → String → Option JValue
  | [], _ => none
  | (k, v) :: rest, key => if k = key then some v else lookupJ rest key

/-- Lines 68–75: parse the `meta` form field.  `if meta:` skips absent or
empty strings; `json.JSONDecodeError` is swallowed (`pass`), leaving the
default; `meta_dict.get("styleId", "toon_ink")` raises `AttributeError`
when the parsed value is not a dict, and that exception escapes to the
outer handler.  A present non-string `styleId` value matches none of the
`style_id ==` comparisons downstream, so it dispatches identically to the
default and is modelled by the default selector. -/
def parseStyle (eff : Effects) (meta : Option String) : Except String String :=
  match meta with
  | none => .ok "toon_ink"
  | some m =>
    if m = "" then .ok "toon_ink"
    else
      match eff.jsonLoads m with
      | .decodeError => .ok "toon_ink"
      | .val (.jDict es) =>
        match lookupJ es "styleId" with
        | some (.jStr s) => .ok s
        | some _ => .ok "toon_ink"
        | none => .ok "toon_ink"
      | .val _ => .error "AttributeError: object has no attribute get"

/-- `ReplicateService.__init__` (replicate_service.py lines 9–14). -/
def replicateInit (token : String) : Except String Unit :=
  if token = "" then .error "Missing REPLICATE_API_TOKEN" else .ok ()

/-- `ReplicateService.cartoonize` (lines 16–58): dispatch, run, extract;
a missing URL raises `ValueError`. -/
def serviceCartoonize (eff : Effects) (image_uri style_id : String) :
    Except String String :=
  let inv := cartoonizeDispatch image_uri style_id
  match eff.runModel inv.model inv.input with
  | .error e => .error e
  | .ok output =>
    match extract_url output with
    | some url => .ok url
    | none => .error "AI succeeded but missing url."

/-- `ReplicateService.remove_background` (lines 60–88). -/
def serviceRemoveBackground (eff : Effects) (image_uri : String) :
    Except String String :=
  let inv := removeBackgroundDispatch image_uri
  match eff.runModel inv.model inv.input with
  | .error e => .error e
  | .ok output =>
    match extract_url output with
    | some url => .ok url
    | none => .error "AI succeeded but missing url."

/-- The `try:` body of the `/cartoon` handler (lines 40–91): acquisition,
buffer truthiness check with early 400 return, meta parsing, image
processing, service construction, inference and the 200 response.
`.error` is an exception escaping to the outer `except`. -/
def cartoonBody (eff : Effects) (buildId : String) (upload : Option (List Nat))
    (imageUrl meta : Option String) : Except String HttpResponse :=
  match acquireBuffer eff upload imageUrl with
  | .error e => .error e
  | .ok buf =>
    match truthyBuffer buf with
    | none => .ok (uploadFailedResponse buildId)
    | some bytes =>
      match parseStyle eff meta with
      | .error e => .error e
      | .ok style =>
        match eff.processImage bytes with
        | .error e => .error e
        | .ok uri =>
          match replicateInit eff.replicateToken with
          | .error e => .error e
          | .ok _ =>
            match serviceCartoonize eff uri style with
            | .error e => .error e
            | .ok url => .ok (successResponse buildId url)

/-- The `/cartoon` handler (routes/ai.py lines 19–108). -/
def cartoonizeHandler (eff : Effects) (buildId : String)
    (upload : Option (List Nat)) (imageUrl meta : Option String) : HttpResponse :=
  match cartoonBody eff buildId upload imageUrl meta with
  | .ok resp => resp
  | .error e => aiErrorResponse buildId "AI cartoon failed" e

/-- The `try:` body of the `/remove-bg` handler (lines 126–167). -/
def removeBgBody (eff : Effects) (buildId : String) (upload : Option (List Nat))
    (imageUrl : Option String) : Except String HttpResponse :=
  match acquireBuffer eff upload imageUrl with
  | .error e => .error e
  | .ok buf =>
    match truthyBuffer buf with
    | none => .ok (uploadFailedResponse buildId)
    | some bytes =>
      match eff.processImage bytes with
      | .error e => .error e
      | .ok uri =>
        match replicateInit eff.replicateToken with
        | .error e => .error e
        | .ok _ =>
          match serviceRemoveBackground eff uri with
          | .error e => .error e
          | .ok url => .ok (successResponse buildId url)

/-- The `/remove-bg` handler (routes/ai.py lines 111–184). -/
def removeBgHandler (eff : Effects) (buildId : String)
    (upload : Option (List Nat)) (imageUrl : Option String) : HttpResponse :=
  match removeBgBody eff buildId upload imageUrl with
  | .ok resp => resp
  | .error e => aiErrorResponse buildId "AI remove-bg failed" e

/-! ## Theorems -/

def priorityKeys : List String := ["url", "image", "output", "result", "href"]

/-- Python `result[key]` on the association-list dict model. -/
def lookupKey : List (String × Value) → String → Option Value
  | [], _ => none
  | (k, v) :: rest, key => if k = key then some v else lookupKey rest key

/-- The documented depth-first reference algorithm for the mapping case,
transcribed from the claim: probe the keys in the fixed priority order,
recurse into each present key's value, first successful recursive
extraction wins. -/
def specDictProbe (es : List (String × Value)) : Option String :=
  priorityKeys.findSome? fun k => (lookupKey es k).bind extract_url

theorem probeOne_eq_lookup (es : List (String × Value)) (k : String) :
    probeOne es k = (lookupKey es k).bind extract_url := by
  induction es with
  | nil => simp [probeOne, lookupKey]
  | cons e rest ih =>
      obtain ⟨k', v⟩ := e
      by_cases h : k' = k <;> simp [probeOne, lookupKey, h, ih]

theorem extract_url_dict_eq_spec (es : List (String × Value)) :
    extract_url (.vDict es) = specDictProbe es := by
  have h1 := probeOne_eq_lookup es "url"
  have h2 := probeOne_eq_lookup es "image"
  have h3 := probeOne_eq_lookup es "output"
  have h4 := probeOne_eq_lookup es "result"
  have h5 := probeOne_eq_lookup es "href"
  simp only [specDictProbe, priorityKeys, List.findSome?_cons, List.findSome?_nil,
    ← h1, ← h2, ← h3, ← h4, ← h5, extract_url]
  cases probeOne es "url" <;> cases probeOne es "image" <;>
    cases probeOne es "output" <;> cases probeOne es "result" <;>
    cases probeOne es "href" <;> rfl

/-- C1.  The result URL extractor equals the documented depth-first
reference algorithm: a string starting with `http://` or `https://` is
returned as is; a non-empty list recurses on its first element only (the
tail is never consulted); a mapping is probed in the fixed priority order
`url, image, output, result, href`, recursing into present keys, first
successful recursive extraction winning; and on
`{"output": {"url": "https://x/y.png"}}` the result is exactly
`"https://x/y.png"`. -/
theorem extract_url_matches_documented_algorithm :
    (∀ s : String, hasHttpScheme s = true → extract_url (.vStr s) = some s)
    ∧ (∀ (x : Value) (xs ys : List Value),
        extract_url (.vList (x :: xs)) = extract_url x
        ∧ extract_url (.vList (x :: xs)) = extract_url (.vList (x :: ys)))
    ∧ (∀ es : List (String × Value), extract_url (.vDict es) = specDictProbe es)
    ∧ extract_url (.vDict [("output", .vDict [("url", .vStr "https://x/y.png")])])
        = some "https://x/y.png" := by
  refine ⟨?_, ?_, extract_url_dict_eq_spec, by decide⟩
  · intro s h
    simp [extract_url, h]
  · intro x xs ys
    exact ⟨rfl, rfl⟩

/-- Witness for C1 at concrete inputs. -/
theorem extract_url_matches_documented_algorithm_witness :
    hasHttpScheme "https://x/y.png" = true
    ∧ extract_url (.vStr "https://x/y.png") = some "https://x/y.png" :=
  ⟨by decide, extract_url_matches_documented_algorithm.1 "https://x/y.png" (by decide)⟩

theorem urlAttrBranch_scheme (u : ObjUrl) (t : String)
    (h : urlAttrBranch u = some t) : hasHttpScheme t = true := by
  cases u <;> simp [urlAttrBranch] at h
  obtain ⟨hs, ht⟩ := h
  exact ht ▸ hs

theorem strReprBranch_scheme (sr : ObjStr) (t : String)
    (h : strReprBranch sr = some t) : hasHttpScheme t = true := by
  cases sr <;> simp [strReprBranch] at h
  obtain ⟨hs, ht⟩ := h
  exact ht ▸ hs

theorem probeOne_scheme :
    ∀ (es : List (String × Value)) (k : String) (s : String),
      probeOne es k = some s → hasHttpScheme s = true := by
  refine probeOne.induct
    (fun v => ∀ s, extract_url v = some s → hasHttpScheme s = true)
    (fun es k => ∀ s, probeOne es k = some s → hasHttpScheme s = true)
    ?_ ?_ ?_ ?_ ?_ ?_ ?_ ?_ ?_ ?_ ?_ ?_ ?_ ?_ ?_ ?_
  · intro s hs t ht
    simp [extract_url, hs] at ht
    exact ht ▸ hs
  · intro s hs t ht
    simp [extract_url, hs] at ht
  · intro t ht
    simp [extract_url] at ht
  · intro x tail ih t ht
    exact ih t ht
  · intro es u hu ih t ht
    simp [extract_url, hu] at ht
    exact ht ▸ ih u hu
  · intro es h1 u hu ih1 ih t ht
    simp [extract_url, h1, hu] at ht
    exact ht ▸ ih u hu
  · intro es h1 h2 u hu ih1 ih2 ih t ht
    simp [extract_url, h1, h2, hu] at ht
    exact ht ▸ ih u hu
  · intro es h1 h2 h3 u hu ih1 ih2 ih3 ih t ht
    simp [extract_url, h1, h2, h3, hu] at ht
    exact ht ▸ ih u hu
  · intro es h1 h2 h3 h4 u hu ih1 ih2 ih3 ih4 ih t ht
    simp [extract_url, h1, h2, h3, h4, hu] at ht
    exact ht ▸ ih u hu
  · intro es h1 h2 h3 h4 h5 ih1 ih2 ih3 ih4 ih5 t ht
    simp [extract_url, h1, h2, h3, h4, h5] at ht
  · intro u sr t hu s hs
    simp [extract_url, hu] at hs
    exact hs ▸ urlAttrBranch_scheme u t hu
  · intro u sr hu s hs
    simp [extract_url, hu] at hs
    exact strReprBranch_scheme sr s hs
  · intro t ht
    simp [extract_url] at ht
  · intro k t ht
    simp [probeOne] at ht
  · intro v rest key ih t ht
    simp [probeOne] at ht
    exact ih t ht
  · intro k v rest key hk ih t ht
    simp [probeOne, hk] at ht
    exact ih t ht

/-- C9.  Every non-`None` value returned by `_extract_url` is a string
starting with `http://` or `https://`, through every branch of the
function. -/
theorem extract_url_result_has_http_scheme (v : Value) (s : String)
    (h : extract_url v = some s) :
    strStartsWith s "http://" = true ∨ strStartsWith s "https://" = true := by
  have hp : probeOne [("k", v)] "k" = some s := by
    simpa [probeOne] using h
  have := probeOne_scheme [("k", v)] "k" s hp
  simpa [hasHttpScheme, Bool.or_eq_true] using this

/-- Witness for C9 at a concrete input. -/
theorem extract_url_result_has_http_scheme_witness :
    extract_url (.vList [.vStr "https://a/b", .vNone]) = some "https://a/b"
    ∧ (strStartsWith "https://a/b" "http://" = true
       ∨ strStartsWith "https://a/b" "https://" = true) :=
  ⟨by decide, extract_url_result_has_http_scheme (.vList [.vStr "https://a/b", .vNone])
    "https://a/b" (by decide)⟩

theorem tryExceptPass_urlAttr (u : ObjUrl) :
    tryExceptPass (urlAttrBranchE u) = urlAttrBranch u := by
  cases u <;> rfl

theorem tryExceptPass_strRepr (sr : ObjStr) :
    tryExceptPass (strReprBranchE sr) = strReprBranch sr := by
  cases sr <;> rfl

theorem probeOneE_ok :
    ∀ (es : List (String × Value)) (k : String),
      probeOneE es k = .ok (probeOne es k) := by
  refine probeOneE.induct
    (fun v => extract_urlE v = .ok (extract_url v))
    (fun es k => probeOneE es k = .ok (probeOne es k))
    ?_ ?_ ?_ ?_ ?_ ?_ ?_ ?_ ?_ ?_ ?_ ?_ ?_ ?_ ?_ ?_ ?_ ?_ ?_ <;>
    intros <;>
    simp_all [extract_url, extract_urlE, probeOne, probeOneE,
      tryExceptPass_urlAttr, tryExceptPass_strRepr]

/-- The exception-explicit extractor never raises on a finite value and
agrees with the pure extractor (helper for the amended C2). -/
theorem extract_urlE_ok (v : Value) : extract_urlE v = .ok (extract_url v) := by
  have h := probeOneE_ok [("k", v)] "k"
  simpa [probeOne, probeOneE] using h

/-- The cyclic Python value `a = [a]` (`json` output cannot be cyclic, but
`_extract_url`'s input is an arbitrary client-library object): heap cell 0
is a one-element list whose element is cell 0 itself. -/
def cyclicHeap : GHeap := [.gList [0]]

/-- The recursion of `_extract_url` on heap value `r` returns within some
depth budget. -/
def ExtractGTerminates (h : GHeap) (r : Nat) : Prop :=
  ∃ fuel, extractG h fuel r ≠ .outOfFuel

theorem extractG_cyclic_all_fuel (fuel : Nat) :
    extractG cyclicHeap fuel 0 = .outOfFuel := by
  induction fuel with
  | zero => simp [extractG]
  | succ k ih => simpa [extractG, cyclicHeap] using ih

/-- Counterexample to C2: on the cyclic list `a = [a]` the extractor's
recursion (`return self._extract_url(result[0])`) never returns for any
recursion depth — in CPython the call raises `RecursionError`, so the
extractor is not exception-free on cyclic structures. -/
theorem extract_url_cyclic_diverges : ¬ ExtractGTerminates cyclicHeap 0 := by
  rintro ⟨fuel, hf⟩
  exact hf (extractG_cyclic_all_fuel fuel)

/-- C2 (amended).  On every finite (acyclic) input value — including
`None` and exotic objects whose `url()` or `str()` probes raise —
`_extract_url` returns a value (`None` when no URL is found) and never
raises: the exception-explicit reading of the function produces no
uncaught exception and agrees with the pure extractor, a raising `url()`
probe is treated exactly as an absent one, and `None` yields absence. -/
theorem extract_url_total_on_finite_values :
    (∀ v : Value, extract_urlE v = .ok (extract_url v))
    ∧ (∀ sr : ObjStr,
        extract_url (.vObj .callRaises sr) = extract_url (.vObj .noAttr sr))
    ∧ extract_url .vNone = none := by
  refine ⟨extract_urlE_ok, ?_, rfl⟩
  intro sr
  rfl

/-- C3.  Model dispatch is a pure total function of (operation, selector):
`toon_mochi` → catacolabs/cartoonify with `{image: uri}`; `toon_anime` →
the qwen photo-to-anime model with `{image: [uri], aspect_ratio:
"match_input_image", output_format: "png", go_fast: true}`; `toon_ink` and
every other selector → flux-kontext-apps/cartoonify with `{input_image:
uri, aspect_ratio: "match_input_image"}`; remove-background → the fixed
851-labs/background-remover with `{image: uri, format: "png",
background_type: "rgba"}`; unknown selectors give exactly the default's
result. -/
theorem dispatch_table_correct :
    (∀ uri : String, cartoonizeDispatch uri "toon_mochi"
        = { model := "catacolabs/cartoonify:043a7a0bb103cd8ce5c63e64161eae63a99f01028b83aa1e28e53a42d86191d3",
            input := [("image", .pStr uri)] })
    ∧ (∀ uri : String, cartoonizeDispatch uri "toon_anime"
        = { model := "qwen-edit-apps/qwen-image-edit-plus-lora-photo-to-anime",
            input := [("image", .pList [uri]),
                      ("aspect_ratio", .pStr "match_input_image"),
                      ("output_format", .pStr "png"),
                      ("go_fast", .pBool true)] })
    ∧ (∀ uri : String, cartoonizeDispatch uri "toon_ink"
        = { model := "flux-kontext-apps/cartoonify:398ba4a9808131eae162741458435bcf145d03690cecef1467bdf81cc1ad654e",
            input := [("input_image", .pStr uri),
                      ("aspect_ratio", .pStr "match_input_image")] })
    ∧ (∀ (uri s : String), s ≠ "toon_mochi" → s ≠ "toon_anime" →
        cartoonizeDispatch uri s = cartoonizeDispatch uri "toon_ink")
    ∧ (∀ uri : String, removeBackgroundDispatch uri
        = { model := "851-labs/background-remover:a029dff38972b5fda4ec5d75d7d1cd25aeff621d2cf4946a41055d7db66b80bc",
            input := [("image", .pStr uri),
                      ("format", .pStr "png"),
                      ("background_type", .pStr "rgba")] }) := by
  refine ⟨fun uri => rfl, fun uri => by simp [cartoonizeDispatch], fun uri => by
    simp [cartoonizeDispatch], ?_, fun uri => rfl⟩
  intro uri s hm ha
  simp [cartoonizeDispatch, hm, ha]

/-- Witness for C3: an unknown selector dispatches exactly as the
default. -/
theorem dispatch_table_correct_witness :
    ("banana" ≠ "toon_mochi" ∧ "banana" ≠ "toon_anime")
    ∧ cartoonizeDispatch "data:image/png;base64,Zm9v" "banana"
        = cartoonizeDispatch "data:image/png;base64,Zm9v" "toon_ink" :=
  ⟨⟨by decide, by decide⟩,
    dispatch_table_correct.2.2.2.1 "data:image/png;base64,Zm9v" "banana"
      (by decide) (by decide)⟩

theorem roundAspectW_cases (v a : ℚ) (y : Nat) :
    roundAspectW v a y = max (⌊v⌋).toNat 1 ∨ roundAspectW v a y = max (⌈v⌉).toNat 1 := by
  simp only [roundAspectW]
  split
  · exact Or.inl rfl
  · exact Or.inr rfl

theorem roundAspectH_cases (v a : ℚ) (x : Nat) :
    roundAspectH v a x = max (⌊v⌋).toNat 1 ∨ roundAspectH v a x = max (⌈v⌉).toNat 1 := by
  simp only [roundAspectH]
  split
  · exact Or.inl rfl
  · exact Or.inr rfl

theorem max_floorceil_le {v : ℚ} {m : Nat} (hm : 1 ≤ m) (hvm : v ≤ (m : ℚ)) :
    max (⌊v⌋).toNat 1 ≤ m ∧ max (⌈v⌉).toNat 1 ≤ m := by
  constructor <;> refine max_le ?_ hm
  · rw [Int.toNat_le]
    calc ⌊v⌋ ≤ ⌊(m : ℚ)⌋ := Int.floor_le_floor hvm
    _ = (m : ℤ) := by exact_mod_cast Int.floor_intCast (α := ℚ) m
  · rw [Int.toNat_le, Int.ceil_le]
    exact_mod_cast hvm

theorem max_floorceil_close {v : ℚ} (hv0 : 0 ≤ v) :
    |((max (⌊v⌋).toNat 1 : Nat) : ℚ) - v| ≤ 1
    ∧ |((max (⌈v⌉).toNat 1 : Nat) : ℚ) - v| ≤ 1 := by
  have hf0 : 0 ≤ ⌊v⌋ := Int.floor_nonneg.mpr hv0
  have hc0 : 0 ≤ ⌈v⌉ := Int.ceil_nonneg hv0
  constructor
  · rcases Nat.lt_or_ge (⌊v⌋).toNat 1 with h1 | h1
    · have hz : (⌊v⌋).toNat = 0 := by omega
      have hlt : v < 1 := by
        have := Int.lt_floor_add_one v
        have hfz : ⌊v⌋ = 0 := by omega
        rw [hfz] at this
        simpa using this
      rw [abs_le]
      constructor <;> simp [hz] <;> linarith
    · have heq : ((max (⌊v⌋).toNat 1 : Nat) : ℚ) = (⌊v⌋ : ℚ) := by
        have h2 : max (⌊v⌋).toNat 1 = (⌊v⌋).toNat := by omega
        have h3 := Int.toNat_of_nonneg hf0
        rw [h2]
        exact_mod_cast h3
      rw [heq, abs_le]
      constructor
      · have := Int.lt_floor_add_one v
        linarith
      · have := Int.floor_le v
        linarith
  · rcases Nat.lt_or_ge (⌈v⌉).toNat 1 with h1 | h1
    · have hz : (⌈v⌉).toNat = 0 := by omega
      have hcz : ⌈v⌉ = 0 := by omega
      have hle : v ≤ 0 := by
        have := Int.le_ceil v
        rw [hcz] at this
        simpa using this
      have hveq : v = 0 := le_antisymm hle hv0
      rw [abs_le]
      constructor <;> simp [hz, hveq]
    · have heq : ((max (⌈v⌉).toNat 1 : Nat) : ℚ) = (⌈v⌉ : ℚ) := by
        have h2 : max (⌈v⌉).toNat 1 = (⌈v⌉).toNat := by omega
        have h3 := Int.toNat_of_nonneg hc0
        rw [h2]
        exact_mod_cast h3
      rw [heq, abs_le]
      constructor
      · have := Int.le_ceil v
        linarith
      · have := Int.ceil_lt_add_one v
        linarith

theorem roundAspectW_le_close (v a : ℚ) (y m : Nat) (hm : 1 ≤ m)
    (hv0 : 0 ≤ v) (hvm : v ≤ (m : ℚ)) :
    roundAspectW v a y ≤ m ∧ |((roundAspectW v a y : Nat) : ℚ) - v| ≤ 1 := by
  rcases roundAspectW_cases v a y with h | h <;> rw [h]
  · exact ⟨(max_floorceil_le hm hvm).1, (max_floorceil_close hv0).1⟩
  · exact ⟨(max_floorceil_le hm hvm).2, (max_floorceil_close hv0).2⟩

theorem roundAspectH_le_close (v a : ℚ) (x m : Nat) (hm : 1 ≤ m)
    (hv0 : 0 ≤ v) (hvm : v ≤ (m : ℚ)) :
    roundAspectH v a x ≤ m ∧ |((roundAspectH v a x : Nat) : ℚ) - v| ≤ 1 := by
  rcases roundAspectH_cases v a x with h | h <;> rw [h]
  · exact ⟨(max_floorceil_le hm hvm).1, (max_floorceil_close hv0).1⟩
  · exact ⟨(max_floorceil_le hm hvm).2, (max_floorceil_close hv0).2⟩

theorem thumbnail_spec (img : PImage) (m : Nat) (hm : 1 ≤ m)
    (hw : 1 ≤ img.width) (hh : 1 ≤ img.height)
    (hbig : m < img.width ∨ m < img.height) :
    (thumbnail img m m).width ≤ m ∧ (thumbnail img m m).height ≤ m
    ∧ |((thumbnail img m m).width : ℚ) * (img.height : ℚ)
        - ((thumbnail img m m).height : ℚ) * (img.width : ℚ)|
        ≤ ((max img.width img.height : Nat) : ℚ)
    ∧ (thumbnail img m m).mode = img.mode := by
  have hwQ : (0 : ℚ) < (img.width : ℚ) := by exact_mod_cast Nat.lt_of_lt_of_le Nat.zero_lt_one hw
  have hhQ : (0 : ℚ) < (img.height : ℚ) := by exact_mod_cast Nat.lt_of_lt_of_le Nat.zero_lt_one hh
  have hmQ : (0 : ℚ) < (m : ℚ) := by exact_mod_cast Nat.lt_of_lt_of_le Nat.zero_lt_one hm
  have hcond : ¬(m ≥ img.width ∧ m ≥ img.height) := by omega
  have hself : (m : ℚ) / (m : ℚ) = 1 := div_self (ne_of_gt hmQ)
  by_cases hbr : (m : ℚ) / (m : ℚ) ≥ (img.width : ℚ) / (img.height : ℚ)
  · -- landscape box condition holds: width ≤ height, long axis is the height
    have hwh : (img.width : ℚ) ≤ (img.height : ℚ) := by
      rw [hself] at hbr
      exact (div_le_one hhQ).mp hbr
    have hT : thumbnail img m m
        = { img with
            width := roundAspectW ((m : ℚ) * ((img.width : ℚ) / (img.height : ℚ)))
                       ((img.width : ℚ) / (img.height : ℚ)) m,
            height := m } := by
      rw [thumbnail, if_neg hcond, if_pos hbr]
    set v : ℚ := (m : ℚ) * ((img.width : ℚ) / (img.height : ℚ)) with hv
    have hv0 : 0 ≤ v := by positivity
    have hvm : v ≤ (m : ℚ) := by
      calc v ≤ (m : ℚ) * 1 := by
              apply mul_le_mul_of_nonneg_left _ (le_of_lt hmQ)
              exact (div_le_one hhQ).mpr hwh
      _ = (m : ℚ) := mul_one _
    obtain ⟨hle, hclose⟩ :=
      roundAspectW_le_close v ((img.width : ℚ) / (img.height : ℚ)) m m hm hv0 hvm
    have hveq : v * (img.height : ℚ) = (m : ℚ) * (img.width : ℚ) := by
      rw [hv]
      field_simp
    refine ⟨by rw [hT]; exact hle, by rw [hT], ?_, by rw [hT]⟩
    rw [hT]
    have hstep :
        ((roundAspectW v ((img.width : ℚ) / (img.height : ℚ)) m : Nat) : ℚ)
            * (img.height : ℚ) - (m : ℚ) * (img.width : ℚ)
          = (((roundAspectW v ((img.width : ℚ) / (img.height : ℚ)) m : Nat) : ℚ) - v)
            * (img.height : ℚ) := by
      rw [sub_mul, hveq]
    calc |((roundAspectW v ((img.width : ℚ) / (img.height : ℚ)) m : Nat) : ℚ)
            * (img.height : ℚ) - (m : ℚ) * (img.width : ℚ)|
        = |((roundAspectW v ((img.width : ℚ) / (img.height : ℚ)) m : Nat) : ℚ) - v|
            * |(img.height : ℚ)| := by rw [hstep, abs_mul]
      _ ≤ 1 * |(img.height : ℚ)| := by
            apply mul_le_mul_of_nonneg_right hclose (abs_nonneg _)
      _ = (img.height : ℚ) := by rw [one_mul, abs_of_pos hhQ]
      _ ≤ ((max img.width img.height : Nat) : ℚ) := by
            exact_mod_cast Nat.le_max_right img.width img.height
  · -- portrait box condition fails: width > height, long axis is the width
    have hwh : (img.height : ℚ) ≤ (img.width : ℚ) := by
      rw [hself] at hbr
      push_neg at hbr
      have := (one_lt_div hhQ).mp hbr
      linarith
    have hT : thumbnail img m m
        = { img with
            width := m,
            height := roundAspectH ((m : ℚ) / ((img.width : ℚ) / (img.height : ℚ)))
                        ((img.width : ℚ) / (img.height : ℚ)) m } := by
      rw [thumbnail, if_neg hcond, if_neg hbr]
    set v : ℚ := (m : ℚ) / ((img.width : ℚ) / (img.height : ℚ)) with hv
    have hvalt : v = (m : ℚ) * (img.height : ℚ) / (img.width : ℚ) := by
      rw [hv]
      field_simp
    have hv0 : 0 ≤ v := by
      rw [hvalt]
      positivity
    have hvm : v ≤ (m : ℚ) := by
      rw [hvalt, div_le_iff₀ hwQ]
      have : (m : ℚ) * (img.height : ℚ) ≤ (m : ℚ) * (img.width : ℚ) :=
        mul_le_mul_of_nonneg_left hwh (le_of_lt hmQ)
      linarith
    obtain ⟨hle, hclose⟩ :=
      roundAspectH_le_close v ((img.width : ℚ) / (img.height : ℚ)) m m hm hv0 hvm
    have hveq : v * (img.width : ℚ) = (m : ℚ) * (img.height : ℚ) := by
      rw [hvalt]
      field_simp
    refine ⟨by rw [hT], by rw [hT]; exact hle, ?_, by rw [hT]⟩
    rw [hT]
    have hstep :
        (m : ℚ) * (img.height : ℚ)
            - ((roundAspectH v ((img.width : ℚ) / (img.height : ℚ)) m : Nat) : ℚ)
              * (img.width : ℚ)
          = (v - ((roundAspectH v ((img.width : ℚ) / (img.height : ℚ)) m : Nat) : ℚ))
            * (img.width : ℚ) := by
      rw [sub_mul, hveq]
    calc |(m : ℚ) * (img.height : ℚ)
            - ((roundAspectH v ((img.width : ℚ) / (img.height : ℚ)) m : Nat) : ℚ)
              * (img.width : ℚ)|
        = |v - ((roundAspectH v ((img.width : ℚ) / (img.height : ℚ)) m : Nat) : ℚ)|
            * |(img.width : ℚ)| := by rw [hstep, abs_mul]
      _ ≤ 1 * |(img.width : ℚ)| := by
            apply mul_le_mul_of_nonneg_right _ (abs_nonneg _)
            rw [abs_sub_comm]
            exact hclose
      _ = (img.width : ℚ) := by rw [one_mul, abs_of_pos hwQ]
      _ ≤ ((max img.width img.height : Nat) : ℚ) := by
            exact_mod_cast Nat.le_max_left img.width img.height

theorem modeConvert_width (img : PImage) : (modeConvert img).width = img.width := by
  rw [modeConvert]
  split <;> rfl

theorem modeConvert_height (img : PImage) : (modeConvert img).height = img.height := by
  rw [modeConvert]
  split <;> rfl

theorem modeConvert_mode (img : PImage) :
    (modeConvert img).mode = "RGB" ∨ (modeConvert img).mode = "RGBA" := by
  rw [modeConvert]
  by_cases h : img.mode = "RGB" ∨ img.mode = "RGBA"
  · rw [if_pos h]
    exact h
  · rw [if_neg h]
    exact Or.inl rfl

/-- C4.  For every decoded image, normalization yields
`data:image/png;base64,<payload>` whose PNG payload records an image in
RGB or RGBA mode with both dimensions ≤ the configured maximum (default
2048); oversized inputs are downscaled preserving the aspect ratio within
1px of the rescaled axis, and in-bound inputs keep their resolution
(no upscaling). -/
theorem process_image_normalizes (maxDim : Nat) (img : PImage)
    (hmax : 1 ≤ maxDim) (hw : 1 ≤ img.width) (hh : 1 ≤ img.height) :
    process_image maxDim img
      = "data:image/png;base64," ++ base64Encode (pngSerialize (normalizeImage maxDim img))
    ∧ ((normalizeImage maxDim img).mode = "RGB" ∨ (normalizeImage maxDim img).mode = "RGBA")
    ∧ (normalizeImage maxDim img).width ≤ maxDim
    ∧ (normalizeImage maxDim img).height ≤ maxDim
    ∧ (img.width ≤ maxDim ∧ img.height ≤ maxDim →
        (normalizeImage maxDim img).width = img.width
        ∧ (normalizeImage maxDim img).height = img.height)
    ∧ (maxDim < img.width ∨ maxDim < img.height →
        |((normalizeImage maxDim img).width : ℚ) * (img.height : ℚ)
          - ((normalizeImage maxDim img).height : ℚ) * (img.width : ℚ)|
          ≤ ((max img.width img.height : Nat) : ℚ))
    ∧ defaultMaxDimension = 2048 := by
  have hdw := modeConvert_width img
  have hdh := modeConvert_height img
  have hdm := modeConvert_mode img
  by_cases hbig : maxDim < img.width ∨ maxDim < img.height
  · have hN : normalizeImage maxDim img = thumbnail (modeConvert img) maxDim maxDim := by
      rw [normalizeImage]
      simp only [hdw, hdh]
      rw [if_pos (by omega)]
    have hw1 : 1 ≤ (modeConvert img).width := by omega
    have hh1 : 1 ≤ (modeConvert img).height := by omega
    have hbig1 : maxDim < (modeConvert img).width ∨ maxDim < (modeConvert img).height := by
      omega
    obtain ⟨h1, h2, h3, h4⟩ := thumbnail_spec (modeConvert img) maxDim hmax hw1 hh1 hbig1
    rw [hdw, hdh] at h3
    refine ⟨rfl, ?_, by rw [hN]; exact h1, by rw [hN]; exact h2, by omega, ?_, rfl⟩
    · rw [hN, h4]
      exact hdm
    · intro _
      rw [hN]
      exact h3
  · have hN : normalizeImage maxDim img = modeConvert img := by
      rw [normalizeImage]
      simp only [hdw, hdh]
      rw [if_neg (by omega)]
    refine ⟨rfl, ?_, ?_, ?_, ?_, fun hc => absurd hc hbig, rfl⟩
    · rw [hN]
      exact hdm
    · rw [hN, hdw]
      omega
    · rw [hN, hdh]
      omega
    · intro _
      rw [hN, hdw, hdh]
      exact ⟨rfl, rfl⟩

/-- Witness for C4 at a concrete input: a 3×5 grayscale image with the
default maximum dimension. -/
theorem process_image_normalizes_witness :
    (1 ≤ 2048 ∧ 1 ≤ (PImage.mk 3 5 "L").width ∧ 1 ≤ (PImage.mk 3 5 "L").height)
    ∧ ((normalizeImage 2048 (PImage.mk 3 5 "L")).mode = "RGB"
        ∨ (normalizeImage 2048 (PImage.mk 3 5 "L")).mode = "RGBA")
    ∧ (normalizeImage 2048 (PImage.mk 3 5 "L")).width ≤ 2048
    ∧ (normalizeImage 2048 (PImage.mk 3 5 "L")).height ≤ 2048 := by
  have h := process_image_normalizes 2048 (PImage.mk 3 5 "L")
    (by decide) (by decide) (by decide)
  exact ⟨⟨by decide, by decide, by decide⟩, h.2.1, h.2.2.1, h.2.2.2.1⟩

/-- A concrete, fully-evaluable set of collaborators: the network returns
200 with three bytes, `json.loads` always fails to decode, image
processing and inference succeed. -/
def demoEffects : Effects :=
  { fetch := fun _ => .ok { status := 200, content := [1, 2, 3] },
    jsonLoads := fun _ => .decodeError,
    processImage := fun _ => .ok "data:image/png;base64,AAAA",
    runModel := fun _ _ => .ok (.vStr "https://replicate.delivery/out.png"),
    replicateToken := "tk" }

/-- `demoEffects` with image processing failing (undecodable bytes). -/
def failingEffects : Effects :=
  { demoEffects with processImage := fun _ => .error "cannot identify image file" }

/-- Counterexample to C5: a request carrying a present-but-empty uploaded
file together with a valid URL is **not** served from the URL.  The upload
branch fires on presence of the file object (`if image and image.file:`),
reads zero bytes, skips the `elif imageUrl:` branch, and the empty buffer
then fails the `if not image_buffer:` check — yielding `UPLOAD_FAILED`
even though the same request without the empty upload would succeed via
the URL. -/
theorem empty_upload_with_url_not_served_from_url :
    removeBgHandler demoEffects "b1" (some []) (some "http:ppbears.example/cat.png")
      = uploadFailedResponse "b1"
    ∧ removeBgHandler demoEffects "b1" none (some "http:ppbears.example/cat.png")
      = successResponse "b1" "https://replicate.delivery/out.png"
    ∧ uploadFailedResponse "b1" ≠ successResponse "b1" "https://replicate.delivery/out.png" :=
  ⟨rfl, rfl, by decide⟩

/-- C5 (amended).  Image acquisition gives priority to a *present* upload:
when the uploaded file part is present its bytes are used in full — the
response does not depend on the URL field or on the network at all (an
empty uploaded payload therefore yields `UPLOAD_FAILED` without consulting
the URL, see the counterexample); when no upload is present and a
non-empty URL is given, the bytes are obtained from the single GET of that
URL, a 2xx response feeding the pipeline exactly as an upload of the
fetched bytes would, and a non-2xx response being a hard failure
(`raise_for_status` escalates to the `AI_ERROR` envelope) with no retry. -/
theorem acquisition_priority_amended (eff : Effects) (buildId : String)
    (bs : List Nat) (imageUrl imageUrl' meta : Option String)
    (f : String → Except String FetchResp) :
    (cartoonizeHandler { eff with fetch := f } buildId (some bs) imageUrl meta
       = cartoonizeHandler eff buildId (some bs) imageUrl' meta
     ∧ removeBgHandler { eff with fetch := f } buildId (some bs) imageUrl
       = removeBgHandler eff buildId (some bs) imageUrl')
    ∧ (∀ (u : String) (resp : FetchResp), u ≠ "" → eff.fetch u = .ok resp →
        200 ≤ resp.status → resp.status ≤ 299 →
        cartoonizeHandler eff buildId none (some u) meta
          = cartoonizeHandler eff buildId (some resp.content) none meta
        ∧ removeBgHandler eff buildId none (some u)
          = removeBgHandler eff buildId (some resp.content) none)
    ∧ (∀ (u : String) (resp : FetchResp), u ≠ "" → eff.fetch u = .ok resp →
        ¬(200 ≤ resp.status ∧ resp.status ≤ 299) →
        cartoonizeHandler eff buildId none (some u) meta
          = aiErrorResponse buildId "AI cartoon failed"
              ("Client error or server error in response: " ++ toString resp.status)
        ∧ removeBgHandler eff buildId none (some u)
          = aiErrorResponse buildId "AI remove-bg failed"
              ("Client error or server error in response: " ++ toString resp.status)) := by
  refine ⟨?_, ?_, ?_⟩
  · cases bs with
    | nil => exact ⟨rfl, rfl⟩
    | cons b rest => exact ⟨rfl, rfl⟩
  · intro u resp hu hf h1 h2
    have ha : acquireBuffer eff none (some u) = .ok (some resp.content) := by
      simp [acquireBuffer, hu, hf, h1, h2]
    constructor
    · simp only [cartoonizeHandler, cartoonBody, ha]
      rfl
    · simp only [removeBgHandler, removeBgBody, ha]
      rfl
  · intro u resp hu hf h3
    have ha : acquireBuffer eff none (some u) =
        .error ("Client error or server error in response: " ++ toString resp.status) := by
      simp [acquireBuffer, hu, hf, h3]
    constructor
    · simp only [cartoonizeHandler, cartoonBody, ha]
    · simp only [removeBgHandler, removeBgBody, ha]

/-- Witness for the amended C5 at concrete inputs. -/
theorem acquisition_priority_amended_witness :
    ("http:u.example/a.png" ≠ ""
      ∧ demoEffects.fetch "http:u.example/a.png" = .ok { status := 200, content := [1, 2, 3] }
      ∧ 200 ≤ 200 ∧ 200 ≤ 299)
    ∧ removeBgHandler demoEffects "b2" none (some "http:u.example/a.png")
        = removeBgHandler demoEffects "b2" (some [1, 2, 3]) none := by
  refine ⟨⟨by decide, rfl, by decide, by decide⟩, ?_⟩
  exact ((acquisition_priority_amended demoEffects "b2" [] none none none
    demoEffects.fetch).2.1 "http:u.example/a.png" { status := 200, content := [1, 2, 3] }
    (by decide) rfl (by decide) (by decide)).2

/-- C6.  A request to either operation that supplies neither an uploaded
image nor a URL gets `{success: false, errorCode: "UPLOAD_FAILED"}` with
HTTP status 400.  The equality holds for *every* `Effects` record, so the
response is independent of the image processor, the inference client and
the network — no normalization, dispatch or inference call can have taken
place. -/
theorem missing_input_yields_upload_failed (eff : Effects) (buildId : String)
    (meta : Option String) :
    cartoonizeHandler eff buildId none none meta = uploadFailedResponse buildId
    ∧ removeBgHandler eff buildId none none = uploadFailedResponse buildId
    ∧ (uploadFailedResponse buildId).status = 400
    ∧ (uploadFailedResponse buildId).body.success = false
    ∧ (uploadFailedResponse buildId).body.errorCode = some "UPLOAD_FAILED" :=
  ⟨rfl, rfl, rfl, rfl, rfl⟩

/-- C7.  When `json.loads` fails on the `meta` form field the style falls
back to `toon_ink` silently: the style resolves to the default and the
whole request behaves exactly as if no `meta` had been sent (it proceeds
through the pipeline rather than being rejected). -/
theorem malformed_meta_falls_back (eff : Effects) (buildId : String)
    (upload : Option (List Nat)) (imageUrl : Option String) (m : String)
    (hparse : eff.jsonLoads m = .decodeError) :
    parseStyle eff (some m) = .ok "toon_ink"
    ∧ cartoonizeHandler eff buildId upload imageUrl (some m)
      = cartoonizeHandler eff buildId upload imageUrl none := by
  have hps : parseStyle eff (some m) = .ok "toon_ink" := by
    rw [parseStyle]
    by_cases hm : m = ""
    · rw [if_pos hm]
    · rw [if_neg hm, hparse]
  have hn : parseStyle eff none = .ok "toon_ink" := rfl
  refine ⟨hps, ?_⟩
  simp only [cartoonizeHandler, cartoonBody, hps, hn]

/-- Witness for C7 at concrete inputs. -/
theorem malformed_meta_falls_back_witness :
    demoEffects.jsonLoads "not valid json" = .decodeError
    ∧ cartoonizeHandler demoEffects "b3" (some [7]) none (some "not valid json")
      = cartoonizeHandler demoEffects "b3" (some [7]) none none :=
  ⟨rfl, (malformed_meta_falls_back demoEffects "b3" (some [7]) none
    "not valid json" rfl).2⟩

theorem cartoonBody_ok_shape (eff : Effects) (buildId : String)
    (upload : Option (List Nat)) (imageUrl meta : Option String)
    (resp : HttpResponse)
    (h : cartoonBody eff buildId upload imageUrl meta = .ok resp) :
    resp = uploadFailedResponse buildId
    ∨ ∃ url, resp = successResponse buildId url := by
  rw [cartoonBody] at h
  repeat' split at h
  all_goals first
    | (exact Except.noConfusion h)
    | (injection h with h
       exact Or.inl h.symm)
    | (injection h with h
       exact Or.inr ⟨_, h.symm⟩)

theorem removeBgBody_ok_shape (eff : Effects) (buildId : String)
    (upload : Option (List Nat)) (imageUrl : Option String)
    (resp : HttpResponse)
    (h : removeBgBody eff buildId upload imageUrl = .ok resp) :
    resp = uploadFailedResponse buildId
    ∨ ∃ url, resp = successResponse buildId url := by
  rw [removeBgBody] at h
  repeat' split at h
  all_goals first
    | (exact Except.noConfusion h)
    | (injection h with h
       exact Or.inl h.symm)
    | (injection h with h
       exact Or.inr ⟨_, h.symm⟩)

theorem cartoonizeHandler_shape (eff : Effects) (buildId : String)
    (upload : Option (List Nat)) (imageUrl meta : Option String) :
    (∃ url, cartoonizeHandler eff buildId upload imageUrl meta
        = successResponse buildId url)
    ∨ cartoonizeHandler eff buildId upload imageUrl meta
        = uploadFailedResponse buildId
    ∨ ∃ e, cartoonizeHandler eff buildId upload imageUrl meta
        = aiErrorResponse buildId "AI cartoon failed" e := by
  rw [cartoonizeHandler]
  rcases h : cartoonBody eff buildId upload imageUrl meta with e | resp
  · exact Or.inr (Or.inr ⟨e, rfl⟩)
  · rcases cartoonBody_ok_shape eff buildId upload imageUrl meta resp h with h2 | ⟨url, h2⟩
    · exact Or.inr (Or.inl h2)
    · exact Or.inl ⟨url, h2⟩

theorem removeBgHandler_shape (eff : Effects) (buildId : String)
    (upload : Option (List Nat)) (imageUrl : Option String) :
    (∃ url, removeBgHandler eff buildId upload imageUrl
        = successResponse buildId url)
    ∨ removeBgHandler eff buildId upload imageUrl
        = uploadFailedResponse buildId
    ∨ ∃ e, removeBgHandler eff buildId upload imageUrl
        = aiErrorResponse buildId "AI remove-bg failed" e := by
  rw [removeBgHandler]
  rcases h : removeBgBody eff buildId upload imageUrl with e | resp
  · exact Or.inr (Or.inr ⟨e, rfl⟩)
  · rcases removeBgBody_ok_shape eff buildId upload imageUrl resp h with h2 | ⟨url, h2⟩
    · exact Or.inr (Or.inl h2)
    · exact Or.inl ⟨url, h2⟩

/-- The success form of the response envelope: success flag set, a URL
present, no error fields. -/
def successForm (r : HttpResponse) : Prop :=
  r.body.success = true ∧ r.body.url.isSome = true
    ∧ r.body.message = none ∧ r.body.errorCode = none

/-- The failure form of the response envelope: success flag cleared, no
URL, message and error code present. -/
def failureForm (r : HttpResponse) : Prop :=
  r.body.success = false ∧ r.body.url = none
    ∧ r.body.message.isSome = true ∧ r.body.errorCode.isSome = true

theorem envelope_of_shape (r : HttpResponse) (buildId : String)
    (h : (∃ url, r = successResponse buildId url)
         ∨ r = uploadFailedResponse buildId
         ∨ ∃ e msg, r = aiErrorResponse buildId msg e) :
    (successForm r ∨ failureForm r) ∧ ¬(successForm r ∧ failureForm r) := by
  constructor
  · rcases h with ⟨url, rfl⟩ | rfl | ⟨e, msg, rfl⟩
    · exact Or.inl ⟨rfl, rfl, rfl, rfl⟩
    · exact Or.inr ⟨rfl, rfl, rfl, rfl⟩
    · exact Or.inr ⟨rfl, rfl, rfl, rfl⟩
  · rintro ⟨⟨hs, _⟩, ⟨hf, _⟩⟩
    rw [hs] at hf
    exact Bool.noConfusion hf

/-- C8.  Every response from either public operation satisfies the
envelope exclusivity invariant: exactly one of (success with a URL) and
(failure with message and error code) holds, for every combination of
inputs and collaborator behaviours — in particular no raw unhandled fault
and no mixed partial result is ever returned. -/
theorem response_envelope_exclusive (eff : Effects) (buildId : String)
    (upload : Option (List Nat)) (imageUrl meta : Option String) :
    ((successForm (cartoonizeHandler eff buildId upload imageUrl meta)
        ∨ failureForm (cartoonizeHandler eff buildId upload imageUrl meta))
      ∧ ¬(successForm (cartoonizeHandler eff buildId upload imageUrl meta)
            ∧ failureForm (cartoonizeHandler eff buildId upload imageUrl meta)))
    ∧ ((successForm (removeBgHandler eff buildId upload imageUrl)
        ∨ failureForm (removeBgHandler eff buildId upload imageUrl))
      ∧ ¬(successForm (removeBgHandler eff buildId upload imageUrl)
            ∧ failureForm (removeBgHandler eff buildId upload imageUrl))) := by
  constructor
  · refine envelope_of_shape _ buildId ?_
    rcases cartoonizeHandler_shape eff buildId upload imageUrl meta with h | h | ⟨e, h⟩
    · exact Or.inl h
    · exact Or.inr (Or.inl h)
    · exact Or.inr (Or.inr ⟨e, "AI cartoon failed", h⟩)
  · refine envelope_of_shape _ buildId ?_
    rcases removeBgHandler_shape eff buildId upload imageUrl with h | h | ⟨e, h⟩
    · exact Or.inl h
    · exact Or.inr (Or.inl h)
    · exact Or.inr (Or.inr ⟨e, "AI remove-bg failed", h⟩)

/-- C10.  Every `AI_ERROR` response from either operation additionally
carries an `error` field with the stringified exception and a `stack`
field with the formatted traceback — internal exception details beyond the
documented envelope fields are always exposed to the caller on failure. -/
theorem ai_error_exposes_exception_details (eff : Effects) (buildId : String)
    (upload : Option (List Nat)) (imageUrl meta : Option String) :
    ((cartoonizeHandler eff buildId upload imageUrl meta).body.errorCode
        = some "AI_ERROR" →
      ∃ e, (cartoonizeHandler eff buildId upload imageUrl meta).body.error = some e
        ∧ (cartoonizeHandler eff buildId upload imageUrl meta).body.stack
            = some (formatExc e))
    ∧ ((removeBgHandler eff buildId upload imageUrl).body.errorCode
        = some "AI_ERROR" →
      ∃ e, (removeBgHandler eff buildId upload imageUrl).body.error = some e
        ∧ (removeBgHandler eff buildId upload imageUrl).body.stack
            = some (formatExc e)) := by
  constructor
  · intro hcode
    rcases cartoonizeHandler_shape eff buildId upload imageUrl meta with ⟨url, h⟩ | h | ⟨e, h⟩
    · rw [h] at hcode
      exact Option.noConfusion hcode
    · rw [h] at hcode
      simp [uploadFailedResponse] at hcode
    · rw [h]
      exact ⟨e, rfl, rfl⟩
  · intro hcode
    rcases removeBgHandler_shape eff buildId upload imageUrl with ⟨url, h⟩ | h | ⟨e, h⟩
    · rw [h] at hcode
      exact Option.noConfusion hcode
    · rw [h] at hcode
      simp [uploadFailedResponse] at hcode
    · rw [h]
      exact ⟨e, rfl, rfl⟩

/-- Witness for C10: undecodable upload bytes produce an `AI_ERROR`
response carrying the exception text and a traceback. -/
theorem ai_error_exposes_exception_details_witness :
    (cartoonizeHandler failingEffects "b4" (some [5]) none none).body.errorCode
      = some "AI_ERROR"
    ∧ ∃ e, (cartoonizeHandler failingEffects "b4" (some [5]) none none).body.error
        = some e
      ∧ (cartoonizeHandler failingEffects "b4" (some [5]) none none).body.stack
        = some (formatExc e) :=
  ⟨rfl, (ai_error_exposes_exception_details failingEffects "b4" (some [5]) none none).1 rfl⟩
